import Mathlib

/-!
# Verification of `cppinvert::IocContainer` (src/cppinvert/IocContainer.hpp)

A shallow embedding of the IOC container: a hierarchical service registry
keyed by `(type, name)` that stores erased value holders, registered
factories, and supports parent delegation in the creation paths.

Modelling conventions:

* `typeid(std::decay_t<T>).name()` (the store / factory key, `getType<T>`)
  is modelled by `decayName`; requested C++ types with their cv/ref
  qualifications are modelled by `CType` (`base` for a plain type,
  `constQ` for a `const`-qualified request).
* `boost::any` tags: a stored holder is a `std::shared_ptr<T>` inside a
  `boost::any`; `holder.type().name()` is modelled by a tag string that
  keeps the qualifier (`typeid(std::shared_ptr<const T>)` differs from
  `typeid(std::shared_ptr<T>)`).  Factory `std::function` signatures get
  their own tags.  The encodings are injective over the distinct C++
  types they stand for, which is the only property `typeid` names have.
* objects are modelled by a fresh address (`addr`, allocated from a
  counter threaded through the operations) and a `Nat` payload (`val`,
  standing for the object's contents; a user factory for some type always
  builds objects with one fixed payload, recorded at registration).
* exceptions (`IocException`, `boost::bad_any_cast`) become `Except`
  errors carrying the data interpolated into the exception message.
* the mutex / locking is not modelled: every public operation holds the
  container's recursive mutex for its whole duration, so the sequential
  semantics below is exactly the per-call behaviour.
* arguments packs `TArgs...` of the factory paths are instantiated at the
  empty pack, which is the instantiation every claim quantifies over
  (and the one `find` itself uses when it calls `createByName<T>(name)`).
-/

namespace CppInvert

/-- A requested C++ type: a plain concrete type or a `const`-qualified
request for it.  (A reference-qualified retrieval such as `get<T&>` does
not compile in the source - `std::shared_ptr<T&>` is ill-formed - so it
is not part of the model.) -/
inductive CType where
  | base (n : String)
  | constQ (n : String)
deriving DecidableEq, Repr

/-- The printed form of the requested type, as it appears inside another
template argument (where `typeid` keeps the qualifier). -/
def CType.render : CType → String
  | .base n => n
  | .constQ n => "const " ++ n

/-- `getType<T>()` = `typeid(std::decay_t<T>).name()`: the store and
factory key; `decay` drops cv/ref qualifiers. -/
def decayName : CType → String
  | .base n => n
  | .constQ n => n

/-- `typeid(HolderPtr<T>).name()` = `typeid(std::shared_ptr<T>).name()`:
the tag of a holder `boost::any`; the qualifier of `T` is kept
(`decay_t<shared_ptr<T>> = shared_ptr<T>`). -/
def holderTag (t : CType) : String :=
  "HolderPtr(" ++ t.render ++ ")"

/-- `typeid(Factory<T>).name()` = tag of `std::function<std::unique_ptr<T>()>`. -/
def uniqueFactoryTag (t : CType) : String :=
  "Factory(" ++ t.render ++ ")"

/-- `typeid(SharedFactory<T>).name()` = tag of `std::function<std::shared_ptr<T>()>`. -/
def sharedFactoryTag (t : CType) : String :=
  "SharedFactory(" ++ t.render ++ ")"

/-- A registered factory: the `boost::any` stores a `std::function`; we
record its type tag (which encodes unique/shared shape and signature) and
the payload of the objects the user's factory body builds. -/
structure FactoryAny where
  tag : String
  out : Nat
deriving DecidableEq, Repr

/-- A stored holder: the `boost::any` in the instance store holds a
`std::shared_ptr<T>`; we record its type tag, the address of the pointee
and the pointee's payload. -/
structure HolderAny where
  tag : String
  addr : Nat
  val : Nat
deriving DecidableEq, Repr

/-- A freshly created object (the result of `createWithoutStoring` /
`createWithoutStoringShared`). -/
structure Obj where
  addr : Nat
  val : Nat
deriving DecidableEq, Repr

/-- The allocation / instrumentation state threaded through operations:
`alloc` is the next fresh object address, `invoked` counts invocations of
user factory functions. -/
structure SideSt where
  alloc : Nat
  invoked : Nat
deriving DecidableEq, Repr

/-- Errors: `IocException` (with the data formatted into its message) and
`boost::bad_any_cast`. -/
inductive IocError where
  /-- "Item not found by type and name. Expected Holder Type = %1%, Name = %2%" -/
  | notFound (expectedHolderType : String) (name : String)
  /-- "Holder type doesn't match expected holder type %1% != %2%" -/
  | holderMismatch (actual : String) (expected : String)
  /-- "No registered factory exists which can create this object. Expected Holder Type = %1%, Name = %2%" -/
  | noFactory (typeName : String) (name : String)
  /-- "Shared factory cannot return a unique ptr ... Expected Factory = %1%, Actual = %2%" -/
  | sharedFactoryAsUnique (expected : String) (actual : String)
  /-- "Registered factory is of an unknown signature ... Expected Factory = %1%, Actual = %2%" -/
  | unknownFactorySig (expected : String) (actual : String)
  /-- `boost::bad_any_cast` out of `boost::any_cast` on a mismatched function type -/
  | badAnyCast
deriving DecidableEq, Repr

/-- Association-list model of `std::unordered_map` lookup (`find` / `at` /
`count`); keys are unique in a real map, the list order is irrelevant. -/
def lookupA {α : Type} (k : String) : List (String × α) → Option α
  | [] => none
  | (k', v) :: rest => if k' = k then some v else lookupA k rest

/-- `insert_or_assign`: replaces the mapped value if the key is present,
otherwise inserts a new entry. -/
def insertOrAssignA {α : Type} (k : String) (v : α) : List (String × α) → List (String × α)
  | [] => [(k, v)]
  | (k', v') :: rest =>
      if k' = k then (k, v) :: rest else (k', v') :: insertOrAssignA k v rest

/-- `erase(iterator)`: removes the (unique) entry with the given key. -/
def eraseKeyA {α : Type} (k : String) : List (String × α) → List (String × α)
  | [] => []
  | (k', v') :: rest => if k' = k then rest else (k', v') :: eraseKeyA k rest

/-- The container: `parent_` (nullable pointer, modelled as the parent's
state), `registeredFactories_` (typeName ↦ erased function) and
`registeredInstances_` (typeName ↦ (name ↦ holder)). -/
inductive IocA where
  | mk : Option IocA → List (String × FactoryAny)
       → List (String × List (String × HolderAny)) → IocA

/-- `parent_` -/
def IocA.parent : IocA → Option IocA
  | .mk p _ _ => p

/-- `registeredFactories_` -/
def IocA.factories : IocA → List (String × FactoryAny)
  | .mk _ f _ => f

/-- `registeredInstances_` -/
def IocA.instances : IocA → List (String × List (String × HolderAny))
  | .mk _ _ i => i

/-- Two-level store lookup: `registeredInstances_.find(typeName)` then
`innerMap.find(name)`. -/
def lookup2 (typeName name : String)
    (inst : List (String × List (String × HolderAny))) : Option HolderAny :=
  match lookupA typeName inst with
  | none => none
  | some inner => lookupA name inner

/-- The `typeid` name of `cppinvert::IocContainer` itself. -/
def containerTypeName : String := "cppinvert::IocContainer"

/-- The constructor: starts empty except for the pre-registered
`Factory<IocContainer>` that builds child containers (whose `parent_` is
set to this container).  The child-container object itself is opaque in
this flat model (payload 0); the recursive-size model below represents
nested containers structurally. -/
def IocA.new (parent : Option IocA) : IocA :=
  .mk parent
    [(containerTypeName, ⟨uniqueFactoryTag (.base containerTypeName), 0⟩)] []

/-- `bindInstanceInternal<T>(name, HolderPtr<T>)`: `operator[]` creates
the inner map when absent, then `insert_or_assign(name, Holder(...))`. -/
def bindInstanceInternalA (t : CType) (name : String) (h : HolderAny)
    (c : IocA) : IocA :=
  let typeName := decayName t
  let inner := (lookupA typeName c.instances).getD []
  .mk c.parent c.factories
    (insertOrAssignA typeName (insertOrAssignA name h inner) c.instances)

/-- `bindValue<T>(name, instance)`: `bindInstance<T>(name,
std::make_shared<T>(std::move(instance)))`, i.e. allocates owned storage
(a fresh address) and stores a holder tagged `shared_ptr<T>`. -/
def bindValueA (t : CType) (name : String) (v : Nat) (c : IocA) (s : SideSt) :
    IocA × SideSt :=
  (bindInstanceInternalA t name ⟨holderTag t, s.alloc, v⟩ c,
   ⟨s.alloc + 1, s.invoked⟩)

/-- `registerFactory<T>(factory)`:
`registeredFactories_.insert_or_assign(getType<T>(), factory)`. -/
def registerFactoryA (t : CType) (f : FactoryAny) (c : IocA) : IocA :=
  .mk c.parent (insertOrAssignA (decayName t) f c.factories) c.instances

/-- `size(false)`: the sum over all inner maps of their sizes (factories
are not counted).  The recursive mode needs structurally nested
containers and is modelled separately (`IocB.size`). -/
def sumLens : List (String × List (String × HolderAny)) → Nat
  | [] => 0
  | (_, inner) :: rest => inner.length + sumLens rest

/-- `size()` (non-recursive). -/
def sizeA (c : IocA) : Nat := sumLens c.instances

/-- `contains<T>(name)`: a store hit on `(getType<T>(), name)`, else
`registeredFactories_.count(typeName) > 0` - the factory check ignores
the name. -/
def containsA (t : CType) (name : String) (c : IocA) : Bool :=
  let typeName := decayName t
  match lookup2 typeName name c.instances with
  | some _ => true
  | none => (lookupA typeName c.factories).isSome

/-- `eraseInstance<T>(name)`: erase the `(typeName, name)` entry if
present; if the inner map becomes empty, erase the outer `typeName`
entry as well. -/
def eraseInstanceA (t : CType) (name : String) (c : IocA) : IocA :=
  let typeName := decayName t
  match lookupA typeName c.instances with
  | none => c
  | some inner =>
    match lookupA name inner with
    | none => c
    | some _ =>
      let inner' := eraseKeyA name inner
      if inner'.length = 0 then
        .mk c.parent c.factories (eraseKeyA typeName c.instances)
      else
        .mk c.parent c.factories (insertOrAssignA typeName inner' c.instances)

/-- `createByName<T>(name)` (empty argument pack): if a factory is
registered here, detect its shape by comparing the `any` tag with
`typeid(SharedFactory<T>)` (the shared branch) and otherwise
`any_cast<Factory<T>>` (throwing `bad_any_cast` on a signature mismatch),
invoke it and `bindInstance(name, ...)` the result; with no local factory
delegate to the parent (mutating the parent through `parent_`), and fail
with an `IocException` at a parentless root. -/
def createByNameA (t : CType) (name : String) :
    IocA → SideSt → (Except IocError Unit) × IocA × SideSt
  | c, s =>
    let typeName := decayName t
    match lookupA typeName c.factories with
    | some f =>
      if f.tag = sharedFactoryTag t then
        (.ok (), bindInstanceInternalA t name ⟨holderTag t, s.alloc, f.out⟩ c,
         ⟨s.alloc + 1, s.invoked + 1⟩)
      else if f.tag = uniqueFactoryTag t then
        (.ok (), bindInstanceInternalA t name ⟨holderTag t, s.alloc, f.out⟩ c,
         ⟨s.alloc + 1, s.invoked + 1⟩)
      else
        (.error .badAnyCast, c, s)
    | none =>
      match c with
      | .mk none fs inst => (.error (.noFactory typeName name), .mk none fs inst, s)
      | .mk (some p) fs inst =>
        match createByNameA t name p s with
        | (.ok _, p', s') => (.ok (), .mk (some p') fs inst, s')
        | (.error e, p', s') => (.error e, .mk (some p') fs inst, s')

/-- `find<T>(name, checkFactory)`: a pure store lookup; on a miss, if
`checkFactory` and a factory is registered here, `createByName<T>(name)`
and retry with `checkFactory = false` - the retry is inlined as the plain
store lookup it amounts to (avoiding the recursion on the flag).
`some h` models the `(true, iterator)` result, `none` the
`(false, ...)` result. -/
def findA (t : CType) (name : String) (checkFactory : Bool) (c : IocA)
    (s : SideSt) : (Except IocError (Option HolderAny)) × IocA × SideSt :=
  let typeName := decayName t
  match lookup2 typeName name c.instances with
  | some h => (.ok (some h), c, s)
  | none =>
    if checkFactory && (lookupA typeName c.factories).isSome then
      match createByNameA t name c s with
      | (.ok _, c', s') => (.ok (lookup2 typeName name c'.instances), c', s')
      | (.error e, c', s') => (.error e, c', s')
    else
      (.ok none, c, s)

/-- `getInternal<T>(name)`: `find<T>(name)`; not found throws the
not-found `IocException` (whose message holds
`getType<HolderPtr<T>>()` and the name); on a hit the holder's `any` tag
is compared with `typeid(HolderPtr<T>)` and a mismatch throws the
holder-type-mismatch `IocException`; otherwise the holder is returned. -/
def getInternalA (t : CType) (name : String) (c : IocA) (s : SideSt) :
    (Except IocError HolderAny) × IocA × SideSt :=
  match findA t name true c s with
  | (.error e, c', s') => (.error e, c', s')
  | (.ok none, c', s') => (.error (.notFound (holderTag t) name), c', s')
  | (.ok (some h), c', s') =>
    if h.tag = holderTag t then (.ok h, c', s')
    else (.error (.holderMismatch h.tag (holderTag t)), c', s')

/-- `get<T>(name)`: same find-and-check sequence as `getInternal`
(duplicated in the source), then returns the pointee by value
(`*boost::any_cast<HolderPtr<T>>(holder)`). -/
def getA (t : CType) (name : String) (c : IocA) (s : SideSt) :
    (Except IocError Nat) × IocA × SideSt :=
  match findA t name true c s with
  | (.error e, c', s') => (.error e, c', s')
  | (.ok none, c', s') => (.error (.notFound (holderTag t) name), c', s')
  | (.ok (some h), c', s') =>
    if h.tag = holderTag t then (.ok h.val, c', s')
    else (.error (.holderMismatch h.tag (holderTag t)), c', s')

/-- `getPtr<T>(name)`:
`boost::any_cast<HolderPtr<T>>(getInternal<T>(name)).get()`. -/
def getPtrA (t : CType) (name : String) (c : IocA) (s : SideSt) :
    (Except IocError Nat) × IocA × SideSt :=
  match getInternalA t name c s with
  | (.ok h, c', s') => (.ok h.addr, c', s')
  | (.error e, c', s') => (.error e, c', s')

/-- `getRef<T>(name)`: dereferences the same pointer; the identity of the
referent is its address. -/
def getRefA (t : CType) (name : String) (c : IocA) (s : SideSt) :
    (Except IocError Nat) × IocA × SideSt :=
  match getInternalA t name c s with
  | (.ok h, c', s') => (.ok h.addr, c', s')
  | (.error e, c', s') => (.error e, c', s')

/-- `getShared<T>(name)`: returns the `shared_ptr<T>` holder itself. -/
def getSharedA (t : CType) (name : String) (c : IocA) (s : SideSt) :
    (Except IocError HolderAny) × IocA × SideSt :=
  getInternalA t name c s

/-- `createByNameWithoutStoring<T>(name)` (empty pack): with a local
factory, a `SharedFactory<T>` tag is rejected ("Shared factory cannot
return a unique ptr"), any other tag than `Factory<T>` is rejected
("unknown signature"), else the factory runs and the fresh object is
returned; the store is never written.  With no local factory, a
parentless root throws not-found, otherwise the call delegates to the
parent. -/
def createByNameWithoutStoringA (t : CType) (name : String) :
    IocA → SideSt → (Except IocError Obj) × IocA × SideSt
  | c, s =>
    let typeName := decayName t
    match lookupA typeName c.factories with
    | some f =>
      if f.tag = sharedFactoryTag t then
        (.error (.sharedFactoryAsUnique (uniqueFactoryTag t) (sharedFactoryTag t)),
         c, s)
      else if f.tag = uniqueFactoryTag t then
        (.ok ⟨s.alloc, f.out⟩, c, ⟨s.alloc + 1, s.invoked + 1⟩)
      else
        (.error (.unknownFactorySig (uniqueFactoryTag t) f.tag), c, s)
    | none =>
      match c with
      | .mk none fs inst => (.error (.noFactory typeName name), .mk none fs inst, s)
      | .mk (some p) fs inst =>
        match createByNameWithoutStoringA t name p s with
        | (r, _, s') => (r, .mk (some p) fs inst, s')

/-- `createByNameWithoutStoringShared<T>(name)` (empty pack): with a
local factory, a `Factory<T>` tag is invoked and its `unique_ptr` moved
into the returned `shared_ptr`; otherwise the holder is
`any_cast<SharedFactory<T>>` (throwing `bad_any_cast` on any other
signature) and invoked.  With no local factory, a parentless root throws
not-found; otherwise the source delegates to the parent's
`createByNameWithoutStoring` - the unique-ptr variant, not the shared
one. -/
def createByNameWithoutStoringSharedA (t : CType) (name : String) :
    IocA → SideSt → (Except IocError Obj) × IocA × SideSt
  | c, s =>
    let typeName := decayName t
    match lookupA typeName c.factories with
    | some f =>
      if f.tag = uniqueFactoryTag t then
        (.ok ⟨s.alloc, f.out⟩, c, ⟨s.alloc + 1, s.invoked + 1⟩)
      else if f.tag = sharedFactoryTag t then
        (.ok ⟨s.alloc, f.out⟩, c, ⟨s.alloc + 1, s.invoked + 1⟩)
      else
        (.error .badAnyCast, c, s)
    | none =>
      match c with
      | .mk none fs inst => (.error (.noFactory typeName name), .mk none fs inst, s)
      | .mk (some p) fs inst =>
        match createByNameWithoutStoringA t name p s with
        | (r, _, s') => (r, .mk (some p) fs inst, s')

/-!
## Recursive-size model

`size(recursive)` walks bound child containers, so it needs structurally
nested containers.  `IocB` keeps exactly the data `size` reads: the
factory map (which `size` ignores - factories are never counted) and the
instance store, where a holder is `some` child container when the entry is
a bound `HolderPtr<IocContainer>` and `none` for any other bound value
(whose contents `size` never inspects).  `parent_` is irrelevant to
`size` and omitted.
-/

/-- Nested-container model of the registry, for `size`. -/
inductive IocB where
  | mk : List (String × Unit) → List (String × List (String × Option IocB)) → IocB

/-- The first loop of `size`: `for (item : registeredInstances_) size +=
item.second.size();`. -/
def sumInnerLens : List (String × List (String × Option IocB)) → Nat
  | [] => 0
  | (_, inner) :: rest => inner.length + sumInnerLens rest

mutual

/-- `size(recursive)`: the number of entries over all inner maps, plus,
in recursive mode, the recursive size of every container bound under the
`typeid(IocContainer)` key. -/
def sizeB (recursive : Bool) : IocB → Nat
  | .mk _ store =>
    sumInnerLens store + (if recursive then extraB recursive store else 0)

/-- `registeredInstances_.find(getType(*this))`, walking the (unique)
keys; on the hit the inner map is summed, on a complete miss the
recursive contribution is 0. -/
def extraB (recursive : Bool) :
    List (String × List (String × Option IocB)) → Nat
  | [] => 0
  | (k, inner) :: rest =>
      if k = containerTypeName then sumSubsB recursive inner
      else extraB recursive rest

/-- The loop over the `typeid(IocContainer)` inner map:
`boost::any_cast<HolderPtr<IocContainer>>` then `size += item->size(recursive)`.
Every holder bound under the container key is a `HolderPtr<IocContainer>`
(that is the only holder type the bind paths store under that key), so
the cast is modelled as total; a `none` holder contributes 0. -/
def sumSubsB (recursive : Bool) : List (String × Option IocB) → Nat
  | [] => 0
  | (_, none) :: rest => sumSubsB recursive rest
  | (_, some sub) :: rest => sizeB recursive sub + sumSubsB recursive rest

end

/-!
## Association-list lemmas (map semantics)
-/

theorem lookupA_insertOrAssignA_self {α : Type} (k : String) (v : α)
    (m : List (String × α)) : lookupA k (insertOrAssignA k v m) = some v := by
  induction m with
  | nil => simp [insertOrAssignA, lookupA]
  | cons p rest ih =>
    obtain ⟨k', v'⟩ := p
    by_cases hk : k' = k
    · simp [insertOrAssignA, hk, lookupA]
    · simp [insertOrAssignA, hk, lookupA, ih]

theorem lookupA_insertOrAssignA_ne {α : Type} (k k' : String) (v : α)
    (m : List (String × α)) (hne : k ≠ k') :
    lookupA k' (insertOrAssignA k v m) = lookupA k' m := by
  induction m with
  | nil => simp [insertOrAssignA, lookupA, hne]
  | cons p rest ih =>
    obtain ⟨k0, v0⟩ := p
    by_cases hk : k0 = k
    · subst hk
      simp [insertOrAssignA, lookupA, hne]
    · simp [insertOrAssignA, hk, lookupA, ih]

theorem insertOrAssignA_of_lookupA_none {α : Type} (k : String) (v : α)
    (m : List (String × α)) (h : lookupA k m = none) :
    insertOrAssignA k v m = m ++ [(k, v)] := by
  induction m with
  | nil => simp [insertOrAssignA]
  | cons p rest ih =>
    obtain ⟨k0, v0⟩ := p
    by_cases hk : k0 = k
    · simp [lookupA, hk] at h
    · simp [lookupA, hk] at h
      simp [insertOrAssignA, hk, ih h]

theorem length_insertOrAssignA_of_some {α : Type} (k : String) (v w : α)
    (m : List (String × α)) (h : lookupA k m = some w) :
    (insertOrAssignA k v m).length = m.length := by
  induction m with
  | nil => simp [lookupA] at h
  | cons p rest ih =>
    obtain ⟨k0, v0⟩ := p
    by_cases hk : k0 = k
    · simp [insertOrAssignA, hk]
    · simp [lookupA, hk] at h
      simp [insertOrAssignA, hk, ih h]

theorem eraseKeyA_append_of_lookupA_none {α : Type} (k : String) (v : α)
    (m : List (String × α)) (h : lookupA k m = none) :
    eraseKeyA k (m ++ [(k, v)]) = m := by
  induction m with
  | nil => simp [eraseKeyA]
  | cons p rest ih =>
    obtain ⟨k0, v0⟩ := p
    by_cases hk : k0 = k
    · simp [lookupA, hk] at h
    · simp [lookupA, hk] at h
      simp [eraseKeyA, hk, ih h]

theorem lookupA_append_self {α : Type} (k : String) (v : α)
    (m : List (String × α)) (h : lookupA k m = none) :
    lookupA k (m ++ [(k, v)]) = some v := by
  induction m with
  | nil => simp [lookupA]
  | cons p rest ih =>
    obtain ⟨k0, v0⟩ := p
    by_cases hk : k0 = k
    · simp [lookupA, hk] at h
    · simp [lookupA, hk] at h
      simp [lookupA, hk, ih h]

theorem sumLens_append_single (k : String) (inner : List (String × HolderAny))
    (m : List (String × List (String × HolderAny))) :
    sumLens (m ++ [(k, inner)]) = sumLens m + inner.length := by
  induction m with
  | nil => simp [sumLens]
  | cons p rest ih =>
    obtain ⟨k0, v0⟩ := p
    simp [sumLens, ih]
    omega

theorem sumLens_insertOrAssignA (k : String)
    (v inner : List (String × HolderAny))
    (m : List (String × List (String × HolderAny)))
    (h : lookupA k m = some inner) :
    sumLens (insertOrAssignA k v m) + inner.length = sumLens m + v.length := by
  induction m with
  | nil => simp [lookupA] at h
  | cons p rest ih =>
    obtain ⟨k0, v0⟩ := p
    by_cases hk : k0 = k
    · simp [lookupA, hk] at h
      subst h
      simp [insertOrAssignA, hk, sumLens]
      omega
    · simp [lookupA, hk] at h
      simp [insertOrAssignA, hk, sumLens]
      have := ih h
      omega

/-!
## Facts about the `typeid` tag encodings

Distinct C++ types have distinct `typeid` names; the encodings above
realize exactly the disequalities the control flow compares.
-/

theorem holderTag_base_ne_constQ (b : String) :
    holderTag (.base b) ≠ holderTag (.constQ b) := by
  intro h
  have hl := congrArg String.length h
  simp only [holderTag, CType.render, String.length_append] at hl
  have h6 : ("const " : String).length = 6 := by decide
  rw [h6] at hl
  omega

theorem sharedFactoryTag_ne_uniqueFactoryTag (t : CType) :
    sharedFactoryTag t ≠ uniqueFactoryTag t := by
  intro h
  have hl := congrArg String.length h
  simp only [sharedFactoryTag, uniqueFactoryTag, String.length_append] at hl
  have h1 : ("SharedFactory(" : String).length = 14 := by decide
  have h2 : ("Factory(" : String).length = 8 := by decide
  rw [h1, h2] at hl
  omega

/-!
## Store-level lemmas about the container operations
-/

theorem parent_bindInstanceInternalA (t : CType) (n : String) (h : HolderAny)
    (c : IocA) : (bindInstanceInternalA t n h c).parent = c.parent := rfl

theorem factories_bindInstanceInternalA (t : CType) (n : String)
    (h : HolderAny) (c : IocA) :
    (bindInstanceInternalA t n h c).factories = c.factories := rfl

theorem lookup2_bindInstanceInternalA_self (t : CType) (n : String)
    (h : HolderAny) (c : IocA) :
    lookup2 (decayName t) n (bindInstanceInternalA t n h c).instances = some h := by
  show lookup2 (decayName t) n
    (insertOrAssignA (decayName t)
      (insertOrAssignA n h ((lookupA (decayName t) c.instances).getD []))
      c.instances) = some h
  simp only [lookup2, lookupA_insertOrAssignA_self]

theorem sizeA_bindInstanceInternalA_of_miss (t : CType) (n : String)
    (h : HolderAny) (c : IocA)
    (hmiss : lookup2 (decayName t) n c.instances = none) :
    sizeA (bindInstanceInternalA t n h c) = sizeA c + 1 := by
  rcases houter : lookupA (decayName t) c.instances with _ | inner
  · show sumLens (insertOrAssignA (decayName t)
      (insertOrAssignA n h ((lookupA (decayName t) c.instances).getD []))
      c.instances) = sizeA c + 1
    rw [houter]
    simp only [Option.getD_none, insertOrAssignA]
    rw [insertOrAssignA_of_lookupA_none _ _ _ houter, sumLens_append_single]
    rfl
  · have hinner : lookupA n inner = none := by
      rw [lookup2, houter] at hmiss
      exact hmiss
    show sumLens (insertOrAssignA (decayName t)
      (insertOrAssignA n h ((lookupA (decayName t) c.instances).getD []))
      c.instances) = sizeA c + 1
    rw [houter]
    simp only [Option.getD_some]
    have hlen : (insertOrAssignA n h inner).length = inner.length + 1 := by
      rw [insertOrAssignA_of_lookupA_none _ _ _ hinner]
      simp
    have := sumLens_insertOrAssignA (decayName t) (insertOrAssignA n h inner)
      inner c.instances houter
    rw [hlen] at this
    have hgoal : sumLens (insertOrAssignA (decayName t)
        (insertOrAssignA n h inner) c.instances) = sumLens c.instances + 1 := by
      omega
    exact hgoal

theorem sizeA_bindInstanceInternalA_of_hit (t : CType) (n : String)
    (h w : HolderAny) (c : IocA)
    (hhit : lookup2 (decayName t) n c.instances = some w) :
    sizeA (bindInstanceInternalA t n h c) = sizeA c := by
  rcases houter : lookupA (decayName t) c.instances with _ | inner
  · rw [lookup2, houter] at hhit
    exact absurd hhit (by simp)
  · have hinner : lookupA n inner = some w := by
      rw [lookup2, houter] at hhit
      exact hhit
    show sumLens (insertOrAssignA (decayName t)
      (insertOrAssignA n h ((lookupA (decayName t) c.instances).getD []))
      c.instances) = sizeA c
    rw [houter]
    simp only [Option.getD_some]
    have hlen : (insertOrAssignA n h inner).length = inner.length :=
      length_insertOrAssignA_of_some n h w inner hinner
    have := sumLens_insertOrAssignA (decayName t) (insertOrAssignA n h inner)
      inner c.instances houter
    rw [hlen] at this
    have hgoal : sumLens (insertOrAssignA (decayName t)
        (insertOrAssignA n h inner) c.instances) = sumLens c.instances := by
      omega
    exact hgoal

/-!
## Resolution-path lemmas
-/

theorem findA_of_hit (t : CType) (n : String) (cf : Bool) (c : IocA)
    (s : SideSt) (h : HolderAny)
    (hh : lookup2 (decayName t) n c.instances = some h) :
    findA t n cf c s = (.ok (some h), c, s) := by
  simp [findA, hh]

theorem findA_of_miss_noFactory (t : CType) (n : String) (cf : Bool)
    (c : IocA) (s : SideSt)
    (hmiss : lookup2 (decayName t) n c.instances = none)
    (hnf : lookupA (decayName t) c.factories = none) :
    findA t n cf c s = (.ok none, c, s) := by
  simp [findA, hmiss, hnf]

theorem createByNameA_local (t : CType) (n : String) (c : IocA) (s : SideSt)
    (f : FactoryAny) (hf : lookupA (decayName t) c.factories = some f)
    (hshape : f.tag = uniqueFactoryTag t ∨ f.tag = sharedFactoryTag t) :
    createByNameA t n c s =
      (.ok (), bindInstanceInternalA t n ⟨holderTag t, s.alloc, f.out⟩ c,
       ⟨s.alloc + 1, s.invoked + 1⟩) := by
  rcases hshape with h | h
  · have hne : ¬(f.tag = sharedFactoryTag t) := by
      rw [h]
      exact fun hc => sharedFactoryTag_ne_uniqueFactoryTag t hc.symm
    rcases c with ⟨_ | p, fs, inst⟩ <;>
      simp_all [createByNameA, IocA.factories, bindInstanceInternalA,
        IocA.instances, IocA.parent]
  · rcases c with ⟨_ | p, fs, inst⟩ <;>
      simp_all [createByNameA, IocA.factories, bindInstanceInternalA,
        IocA.instances, IocA.parent]

theorem findA_factory_creates (t : CType) (n : String) (c : IocA) (s : SideSt)
    (f : FactoryAny)
    (hmiss : lookup2 (decayName t) n c.instances = none)
    (hf : lookupA (decayName t) c.factories = some f)
    (hshape : f.tag = uniqueFactoryTag t ∨ f.tag = sharedFactoryTag t) :
    findA t n true c s =
      (.ok (some ⟨holderTag t, s.alloc, f.out⟩),
       bindInstanceInternalA t n ⟨holderTag t, s.alloc, f.out⟩ c,
       ⟨s.alloc + 1, s.invoked + 1⟩) := by
  simp only [findA, hmiss, hf, Option.isSome_some, Bool.and_true,
    createByNameA_local t n c s f hf hshape,
    lookup2_bindInstanceInternalA_self]
  simp

theorem getInternalA_of_hit (t : CType) (n : String) (c : IocA) (s : SideSt)
    (h : HolderAny) (hh : lookup2 (decayName t) n c.instances = some h)
    (ht : h.tag = holderTag t) :
    getInternalA t n c s = (.ok h, c, s) := by
  simp [getInternalA, findA_of_hit t n true c s h hh, ht]

theorem getA_of_hit (t : CType) (n : String) (c : IocA) (s : SideSt)
    (h : HolderAny) (hh : lookup2 (decayName t) n c.instances = some h)
    (ht : h.tag = holderTag t) :
    getA t n c s = (.ok h.val, c, s) := by
  simp [getA, findA_of_hit t n true c s h hh, ht]

theorem getPtrA_of_hit (t : CType) (n : String) (c : IocA) (s : SideSt)
    (h : HolderAny) (hh : lookup2 (decayName t) n c.instances = some h)
    (ht : h.tag = holderTag t) :
    getPtrA t n c s = (.ok h.addr, c, s) := by
  simp [getPtrA, getInternalA_of_hit t n c s h hh ht]

theorem getInternalA_of_miss_noFactory (t : CType) (n : String) (c : IocA)
    (s : SideSt) (hmiss : lookup2 (decayName t) n c.instances = none)
    (hnf : lookupA (decayName t) c.factories = none) :
    getInternalA t n c s = (.error (.notFound (holderTag t) n), c, s) := by
  simp [getInternalA, findA_of_miss_noFactory t n true c s hmiss hnf]

theorem getA_of_miss_noFactory (t : CType) (n : String) (c : IocA)
    (s : SideSt) (hmiss : lookup2 (decayName t) n c.instances = none)
    (hnf : lookupA (decayName t) c.factories = none) :
    getA t n c s = (.error (.notFound (holderTag t) n), c, s) := by
  simp [getA, findA_of_miss_noFactory t n true c s hmiss hnf]

/-!
## The claims
-/

/-- C4: on every successful store hit of a retrieval, the stored holder's
recorded type tag is compared against the holder type implied by the
requested type `T` (`typeid(HolderPtr<T>)`); equality yields the stored
holder (or its pointee), a mismatch yields the holder-type-mismatch
`IocException` naming the actual and expected types - never a
reinterpreted value.  `getPtr`/`getRef`/`getShared` all go through
`getInternal`, so the two functions below cover all four retrievals. -/
theorem c4_store_hit_type_checked (t : CType) (n : String) (c : IocA)
    (s : SideSt) (h : HolderAny)
    (hh : lookup2 (decayName t) n c.instances = some h) :
    (h.tag = holderTag t →
      getInternalA t n c s = (.ok h, c, s) ∧ getA t n c s = (.ok h.val, c, s))
    ∧ (h.tag ≠ holderTag t →
      getInternalA t n c s = (.error (.holderMismatch h.tag (holderTag t)), c, s)
      ∧ getA t n c s = (.error (.holderMismatch h.tag (holderTag t)), c, s)) := by
  constructor
  · intro ht
    exact ⟨getInternalA_of_hit t n c s h hh ht, getA_of_hit t n c s h hh ht⟩
  · intro ht
    constructor
    · simp [getInternalA, findA_of_hit t n true c s h hh, ht]
    · simp [getA, findA_of_hit t n true c s h hh, ht]

/-- C4 witness: a store whose (artificially corrupted) holder under key
`Widget` is tagged as a `Gadget` holder makes `getInternal<Widget>` fail
with the mismatch error naming both types. -/
theorem c4_store_hit_type_checked_witness :
    lookup2 (decayName (.base "Widget")) ""
        (IocA.mk none []
          [("Widget", [("", ⟨holderTag (.base "Gadget"), 5, 9⟩)])]).instances
      = some ⟨holderTag (.base "Gadget"), 5, 9⟩
    ∧ getInternalA (.base "Widget") ""
        (IocA.mk none []
          [("Widget", [("", ⟨holderTag (.base "Gadget"), 5, 9⟩)])]) ⟨0, 0⟩
      = (.error (.holderMismatch (holderTag (.base "Gadget"))
          (holderTag (.base "Widget"))),
         IocA.mk none []
           [("Widget", [("", ⟨holderTag (.base "Gadget"), 5, 9⟩)])], ⟨0, 0⟩) :=
  ⟨by decide,
   ((c4_store_hit_type_checked (.base "Widget") ""
      (IocA.mk none []
        [("Widget", [("", ⟨holderTag (.base "Gadget"), 5, 9⟩)])]) ⟨0, 0⟩
      ⟨holderTag (.base "Gadget"), 5, 9⟩ (by decide)).2 (by decide)).1⟩

/-- C5: when only a shared factory (`SharedFactory<T>`) is registered for
`T`, requesting an exclusively-owned result through
`createByNameWithoutStoring<T>` fails with the "shared factory cannot
return a unique ptr" `IocException`; the container and the side state
are returned unchanged, so the factory was not invoked and nothing was
reinterpreted. -/
theorem c5_shared_factory_unique_request_rejected (t : CType) (n : String)
    (c : IocA) (s : SideSt) (f : FactoryAny)
    (hf : lookupA (decayName t) c.factories = some f)
    (hsh : f.tag = sharedFactoryTag t) :
    createByNameWithoutStoringA t n c s =
      (.error (.sharedFactoryAsUnique (uniqueFactoryTag t)
        (sharedFactoryTag t)), c, s) := by
  rcases c with ⟨_ | p, fs, inst⟩ <;>
    simp_all [createByNameWithoutStoringA, IocA.factories]

/-- C5 witness: a root with only a shared `Widget` factory rejects
`createWithoutStoring<Widget>` and leaves the invocation counter at 0. -/
theorem c5_shared_factory_unique_request_rejected_witness :
    lookupA (decayName (.base "Widget"))
        (registerFactoryA (.base "Widget")
          ⟨sharedFactoryTag (.base "Widget"), 7⟩ (IocA.new none)).factories
      = some ⟨sharedFactoryTag (.base "Widget"), 7⟩
    ∧ createByNameWithoutStoringA (.base "Widget") ""
        (registerFactoryA (.base "Widget")
          ⟨sharedFactoryTag (.base "Widget"), 7⟩ (IocA.new none)) ⟨0, 0⟩
      = (.error (.sharedFactoryAsUnique (uniqueFactoryTag (.base "Widget"))
          (sharedFactoryTag (.base "Widget"))),
         registerFactoryA (.base "Widget")
           ⟨sharedFactoryTag (.base "Widget"), 7⟩ (IocA.new none), ⟨0, 0⟩) :=
  ⟨by decide,
   c5_shared_factory_unique_request_rejected (.base "Widget") ""
     (registerFactoryA (.base "Widget")
       ⟨sharedFactoryTag (.base "Widget"), 7⟩ (IocA.new none)) ⟨0, 0⟩
     ⟨sharedFactoryTag (.base "Widget"), 7⟩ (by decide) rfl⟩

/-- C6: `insert_or_assign` keeps at most one holder per (type, name)
key.  After `bindValue<T>(n, v1)`, `get<T>(n)` returns `v1`; rebinding
the same key with `v2` replaces the holder - `size()` is unchanged by the
rebind and the subsequent `get<T>(n)` observes `v2`. -/
theorem c6_bind_get_rebind_replaces (t : CType) (n : String) (v1 v2 : Nat)
    (c : IocA) (s : SideSt) :
    getA t n (bindValueA t n v1 c s).1 (bindValueA t n v1 c s).2 =
      (.ok v1, (bindValueA t n v1 c s).1, (bindValueA t n v1 c s).2)
    ∧ sizeA (bindValueA t n v2 (bindValueA t n v1 c s).1
        (bindValueA t n v1 c s).2).1 = sizeA (bindValueA t n v1 c s).1
    ∧ getA t n
        (bindValueA t n v2 (bindValueA t n v1 c s).1 (bindValueA t n v1 c s).2).1
        (bindValueA t n v2 (bindValueA t n v1 c s).1 (bindValueA t n v1 c s).2).2 =
      (.ok v2,
       (bindValueA t n v2 (bindValueA t n v1 c s).1 (bindValueA t n v1 c s).2).1,
       (bindValueA t n v2 (bindValueA t n v1 c s).1 (bindValueA t n v1 c s).2).2) := by
  refine ⟨?_, ?_, ?_⟩
  · exact getA_of_hit t n _ _ ⟨holderTag t, s.alloc, v1⟩
      (lookup2_bindInstanceInternalA_self t n _ c) rfl
  · exact sizeA_bindInstanceInternalA_of_hit t n _ ⟨holderTag t, s.alloc, v1⟩ _
      (lookup2_bindInstanceInternalA_self t n _ c)
  · exact getA_of_hit t n _ _ ⟨holderTag t, s.alloc + 1, v2⟩
      (lookup2_bindInstanceInternalA_self t n _ _) rfl

/-- C10: `contains<T>(name)` falls back to
`registeredFactories_.count(typeName) > 0`, which ignores the name
entirely, so a registered factory makes `contains<T>(n)` true for every
name; and since construction pre-registers the child-container factory,
a fresh container reports `contains<IocContainer>(n)` true for every
name. -/
theorem c10_contains_factory_ignores_name (t : CType) (n : String)
    (c : IocA) (f : FactoryAny)
    (hf : lookupA (decayName t) c.factories = some f) :
    containsA t n c = true
    ∧ ∀ (p : Option IocA) (n' : String),
        containsA (.base containerTypeName) n' (IocA.new p) = true := by
  constructor
  · rcases hh : lookup2 (decayName t) n c.instances with _ | h
    · simp [containsA, hh, hf]
    · simp [containsA, hh]
  · intro p n'
    simp [containsA, IocA.new, IocA.factories, IocA.instances, lookup2,
      lookupA, decayName]

/-- C10 witness: a fresh root container (no instance ever bound) reports
`contains<IocContainer>("anything")` as true. -/
theorem c10_contains_factory_ignores_name_witness :
    lookupA (decayName (.base containerTypeName)) (IocA.new none).factories
      = some ⟨uniqueFactoryTag (.base containerTypeName), 0⟩
    ∧ containsA (.base containerTypeName) "anything" (IocA.new none) = true :=
  ⟨by decide,
   (c10_contains_factory_ignores_name (.base containerTypeName) "anything"
     (IocA.new none) ⟨uniqueFactoryTag (.base containerTypeName), 0⟩
     (by decide)).1⟩

/-- C2: with a factory registered for `T` (of either shape) and no
binding for `(T, n)`, the first `getPtr<T>(n)` invokes the factory
exactly once (the invocation counter rises by 1), stores the fresh
object under `(T, n)` exactly once (`size()` rises by 1, the entry is
present), and returns its address; the second identical call returns the
identical address with the container and side state unchanged (no new
invocation, `size()` rises by 0). -/
theorem c2_factory_memoization (t : CType) (n : String) (c : IocA)
    (s : SideSt) (f : FactoryAny)
    (hf : lookupA (decayName t) c.factories = some f)
    (hshape : f.tag = uniqueFactoryTag t ∨ f.tag = sharedFactoryTag t)
    (hmiss : lookup2 (decayName t) n c.instances = none) :
    getPtrA t n c s =
      (.ok s.alloc, bindInstanceInternalA t n ⟨holderTag t, s.alloc, f.out⟩ c,
       ⟨s.alloc + 1, s.invoked + 1⟩)
    ∧ sizeA (bindInstanceInternalA t n ⟨holderTag t, s.alloc, f.out⟩ c)
        = sizeA c + 1
    ∧ lookup2 (decayName t) n
        (bindInstanceInternalA t n ⟨holderTag t, s.alloc, f.out⟩ c).instances
      = some ⟨holderTag t, s.alloc, f.out⟩
    ∧ getPtrA t n (bindInstanceInternalA t n ⟨holderTag t, s.alloc, f.out⟩ c)
        ⟨s.alloc + 1, s.invoked + 1⟩ =
      (.ok s.alloc, bindInstanceInternalA t n ⟨holderTag t, s.alloc, f.out⟩ c,
       ⟨s.alloc + 1, s.invoked + 1⟩) := by
  refine ⟨?_, ?_, ?_, ?_⟩
  · simp [getPtrA, getInternalA, findA_factory_creates t n c s f hmiss hf hshape]
  · exact sizeA_bindInstanceInternalA_of_miss t n _ c hmiss
  · exact lookup2_bindInstanceInternalA_self t n _ c
  · exact getPtrA_of_hit t n _ _ ⟨holderTag t, s.alloc, f.out⟩
      (lookup2_bindInstanceInternalA_self t n _ c) rfl

/-- C2 witness: a root with a unique `Widget` factory and empty store;
the two successive `getPtr<Widget>("a")` calls return the address
allocated by the single factory invocation. -/
theorem c2_factory_memoization_witness :
    lookupA (decayName (.base "Widget"))
        (registerFactoryA (.base "Widget")
          ⟨uniqueFactoryTag (.base "Widget"), 7⟩ (IocA.new none)).factories
      = some ⟨uniqueFactoryTag (.base "Widget"), 7⟩
    ∧ lookup2 (decayName (.base "Widget")) "a"
        (registerFactoryA (.base "Widget")
          ⟨uniqueFactoryTag (.base "Widget"), 7⟩ (IocA.new none)).instances
      = none
    ∧ (getPtrA (.base "Widget") "a"
        (registerFactoryA (.base "Widget")
          ⟨uniqueFactoryTag (.base "Widget"), 7⟩ (IocA.new none)) ⟨0, 0⟩ =
      (.ok 0,
       bindInstanceInternalA (.base "Widget") "a"
         ⟨holderTag (.base "Widget"), 0, 7⟩
         (registerFactoryA (.base "Widget")
           ⟨uniqueFactoryTag (.base "Widget"), 7⟩ (IocA.new none)),
       ⟨1, 1⟩)
      ∧ sizeA (bindInstanceInternalA (.base "Widget") "a"
          ⟨holderTag (.base "Widget"), 0, 7⟩
          (registerFactoryA (.base "Widget")
            ⟨uniqueFactoryTag (.base "Widget"), 7⟩ (IocA.new none)))
        = sizeA (registerFactoryA (.base "Widget")
            ⟨uniqueFactoryTag (.base "Widget"), 7⟩ (IocA.new none)) + 1
      ∧ lookup2 (decayName (.base "Widget")) "a"
          (bindInstanceInternalA (.base "Widget") "a"
            ⟨holderTag (.base "Widget"), 0, 7⟩
            (registerFactoryA (.base "Widget")
              ⟨uniqueFactoryTag (.base "Widget"), 7⟩ (IocA.new none))).instances
        = some ⟨holderTag (.base "Widget"), 0, 7⟩
      ∧ getPtrA (.base "Widget") "a"
          (bindInstanceInternalA (.base "Widget") "a"
            ⟨holderTag (.base "Widget"), 0, 7⟩
            (registerFactoryA (.base "Widget")
              ⟨uniqueFactoryTag (.base "Widget"), 7⟩ (IocA.new none))) ⟨1, 1⟩ =
        (.ok 0,
         bindInstanceInternalA (.base "Widget") "a"
           ⟨holderTag (.base "Widget"), 0, 7⟩
           (registerFactoryA (.base "Widget")
             ⟨uniqueFactoryTag (.base "Widget"), 7⟩ (IocA.new none)),
         ⟨1, 1⟩)) :=
  ⟨by decide, by decide,
   c2_factory_memoization (.base "Widget") "a"
     (registerFactoryA (.base "Widget")
       ⟨uniqueFactoryTag (.base "Widget"), 7⟩ (IocA.new none)) ⟨0, 0⟩
     ⟨uniqueFactoryTag (.base "Widget"), 7⟩ (by decide) (Or.inl rfl)
     (by decide)⟩

/-- C1 counterexample: a parent holding `("Config", "cfg") ↦ 42` and a
child container created with that parent (so the child has a parent but
no binding and no factory for `Config`).  The claim says the child's
`get<Config>("cfg")` delegates to the parent and returns 42; in the
code, `find`/`getInternal`/`get` never consult `parent_`, so the child's
retrieval fails with the not-found `IocException` while the parent's own
retrieval succeeds with 42. -/
theorem c1_parent_binding_not_delegated_counterexample :
    lookup2 (decayName (.base "Config")) "cfg"
        (IocA.new (some ((bindValueA (.base "Config") "cfg" 42
          (IocA.new none) ⟨0, 0⟩).1))).instances = none
    ∧ lookupA (decayName (.base "Config"))
        (IocA.new (some ((bindValueA (.base "Config") "cfg" 42
          (IocA.new none) ⟨0, 0⟩).1))).factories = none
    ∧ (getA (.base "Config") "cfg"
        ((bindValueA (.base "Config") "cfg" 42 (IocA.new none) ⟨0, 0⟩).1)
        ⟨1, 0⟩).1 = .ok 42
    ∧ (getA (.base "Config") "cfg"
        (IocA.new (some ((bindValueA (.base "Config") "cfg" 42
          (IocA.new none) ⟨0, 0⟩).1))) ⟨1, 0⟩).1
      = .error (.notFound (holderTag (.base "Config")) "cfg") :=
  ⟨rfl, rfl, rfl, rfl⟩

/-- C1 (amended): when a registry has no binding and no factory for `T`,
every retrieval (`get`, `getPtr`, `getRef`, `getShared`) fails with the
not-found `IocException` regardless of any parent - the retrieval path
never consults `parent_` (delegation exists only in the `create*`
operations) - and the registry's own store is left unchanged (the
container and side state come back untouched), so it still does not
contain `(T, n)` afterwards. -/
theorem c1_retrieval_ignores_parent (t : CType) (n : String) (c : IocA)
    (s : SideSt)
    (hmiss : lookup2 (decayName t) n c.instances = none)
    (hnf : lookupA (decayName t) c.factories = none) :
    getA t n c s = (.error (.notFound (holderTag t) n), c, s)
    ∧ getPtrA t n c s = (.error (.notFound (holderTag t) n), c, s)
    ∧ getRefA t n c s = (.error (.notFound (holderTag t) n), c, s)
    ∧ getSharedA t n c s = (.error (.notFound (holderTag t) n), c, s) := by
  have hi := getInternalA_of_miss_noFactory t n c s hmiss hnf
  exact ⟨getA_of_miss_noFactory t n c s hmiss hnf,
    by simp [getPtrA, hi], by simp [getRefA, hi], by simp [getSharedA, hi]⟩

/-- C1 witness: the amended theorem applied to the child of the
counterexample scenario - a child with an empty store, no `Config`
factory and a parent that does hold the binding. -/
theorem c1_retrieval_ignores_parent_witness :
    lookup2 (decayName (.base "Config")) "cfg"
        (IocA.new (some ((bindValueA (.base "Config") "cfg" 42
          (IocA.new none) ⟨0, 0⟩).1))).instances = none
    ∧ getA (.base "Config") "cfg"
        (IocA.new (some ((bindValueA (.base "Config") "cfg" 42
          (IocA.new none) ⟨0, 0⟩).1))) ⟨1, 0⟩
      = (.error (.notFound (holderTag (.base "Config")) "cfg"),
         IocA.new (some ((bindValueA (.base "Config") "cfg" 42
           (IocA.new none) ⟨0, 0⟩).1)), ⟨1, 0⟩) :=
  ⟨rfl,
   (c1_retrieval_ignores_parent (.base "Config") "cfg"
     (IocA.new (some ((bindValueA (.base "Config") "cfg" 42
       (IocA.new none) ⟨0, 0⟩).1))) ⟨1, 0⟩ rfl rfl).1⟩

/-- C7 counterexample: after `bindValue<int>("", 42)`, the plain
`get<int>()` succeeds with 42, but `get<const int>()` - although the key
`typeid(decay_t<const int>) = typeid(int)` addresses the same slot - does
not succeed: the expected holder type `typeid(shared_ptr<const int>)`
keeps the qualifier and differs from the stored
`typeid(shared_ptr<int>)`, so the call fails with the holder-type
mismatch `IocException` instead of returning the stored value. -/
theorem c7_qualified_get_counterexample :
    (getA (.base "int") ""
        ((bindValueA (.base "int") "" 42 (IocA.new none) ⟨0, 0⟩).1) ⟨1, 0⟩).1
      = .ok 42
    ∧ (getA (.constQ "int") ""
        ((bindValueA (.base "int") "" 42 (IocA.new none) ⟨0, 0⟩).1) ⟨1, 0⟩).1
      = .error (.holderMismatch (holderTag (.base "int"))
          (holderTag (.constQ "int"))) :=
  ⟨rfl, rfl⟩

/-- C7 (amended): `const` qualification on the requested type is
normalized away before key computation (`decayName` is the same for `T`
and `const T`), so `get<T>()` and `get<const T>()` address the same
slot; but only the unqualified retrieval succeeds with the stored value -
the `const`-qualified retrieval finds the same holder and then fails the
holder-type check, because the expected holder type
`typeid(shared_ptr<const T>)` retains the qualifier and differs from the
stored `typeid(shared_ptr<T>)`.  (A reference-qualified `get<T&>()` does
not even compile: `std::shared_ptr<T&>` is ill-formed.) -/
theorem c7_decay_same_slot_but_mismatch (b n : String) (v : Nat) (c : IocA)
    (s : SideSt) :
    decayName (.base b) = decayName (.constQ b)
    ∧ getA (.base b) n (bindValueA (.base b) n v c s).1
        (bindValueA (.base b) n v c s).2 =
      (.ok v, (bindValueA (.base b) n v c s).1, (bindValueA (.base b) n v c s).2)
    ∧ getA (.constQ b) n (bindValueA (.base b) n v c s).1
        (bindValueA (.base b) n v c s).2 =
      (.error (.holderMismatch (holderTag (.base b)) (holderTag (.constQ b))),
       (bindValueA (.base b) n v c s).1, (bindValueA (.base b) n v c s).2) := by
  refine ⟨rfl, ?_, ?_⟩
  · exact getA_of_hit (.base b) n _ _ ⟨holderTag (.base b), s.alloc, v⟩
      (lookup2_bindInstanceInternalA_self (.base b) n _ c) rfl
  · have hfind := findA_of_hit (.constQ b) n true
      (bindValueA (.base b) n v c s).1 (bindValueA (.base b) n v c s).2
      ⟨holderTag (.base b), s.alloc, v⟩
      (lookup2_bindInstanceInternalA_self (.base b) n _ c)
    simp [getA, hfind, holderTag_base_ne_constQ b]

/-- C8: starting from a container with no entry under `T`'s type key
(and no factory for `T`), binding a value under `(T, n)` and then
`eraseInstance<T>(n)` removes the binding, and - since it was the only
entry under `T`'s key - removes the whole inner name-map for `T` from
the outer map, restoring the store to exactly its original contents;
afterwards `contains<T>(n)` is false and the entry no longer contributes
to `size()`. -/
theorem c8_erase_collapses_group (t : CType) (n : String) (v : Nat)
    (c : IocA) (s : SideSt)
    (houter : lookupA (decayName t) c.instances = none)
    (hnf : lookupA (decayName t) c.factories = none) :
    containsA t n (bindValueA t n v c s).1 = true
    ∧ (eraseInstanceA t n (bindValueA t n v c s).1).instances = c.instances
    ∧ lookupA (decayName t)
        (eraseInstanceA t n (bindValueA t n v c s).1).instances = none
    ∧ containsA t n (eraseInstanceA t n (bindValueA t n v c s).1) = false
    ∧ sizeA (eraseInstanceA t n (bindValueA t n v c s).1) = sizeA c := by
  have hinst : (bindValueA t n v c s).1.instances
      = c.instances ++ [(decayName t, [(n, ⟨holderTag t, s.alloc, v⟩)])] := by
    show (insertOrAssignA (decayName t)
      (insertOrAssignA n ⟨holderTag t, s.alloc, v⟩
        ((lookupA (decayName t) c.instances).getD []))
      c.instances) = _
    rw [houter]
    simp only [Option.getD_none, insertOrAssignA]
    exact insertOrAssignA_of_lookupA_none _ _ _ houter
  have hl2 : lookup2 (decayName t) n (bindValueA t n v c s).1.instances
      = some ⟨holderTag t, s.alloc, v⟩ :=
    lookup2_bindInstanceInternalA_self t n _ c
  have hcontains : containsA t n (bindValueA t n v c s).1 = true := by
    simp [containsA, hl2]
  have herase : (eraseInstanceA t n (bindValueA t n v c s).1).instances
      = c.instances := by
    have hlook : lookupA (decayName t) (bindValueA t n v c s).1.instances
        = some [(n, ⟨holderTag t, s.alloc, v⟩)] := by
      rw [hinst]
      exact lookupA_append_self _ _ _ houter
    show (eraseInstanceA t n (bindValueA t n v c s).1).instances = c.instances
    rw [eraseInstanceA]
    rw [hlook]
    simp only [lookupA, if_pos rfl, eraseKeyA, List.length_nil, if_true]
    show (IocA.mk _ _
      (eraseKeyA (decayName t) (bindValueA t n v c s).1.instances)).instances = _
    rw [IocA.instances, hinst]
    exact eraseKeyA_append_of_lookupA_none _ _ _ houter
  refine ⟨hcontains, herase, ?_, ?_, ?_⟩
  · rw [herase]
    exact houter
  · have hfac : (eraseInstanceA t n (bindValueA t n v c s).1).factories
        = c.factories := by
      rw [eraseInstanceA]
      rw [hinst, lookupA_append_self _ _ _ houter]
      simp only [lookupA, if_pos rfl, eraseKeyA, List.length_nil, if_true]
      rfl
    simp [containsA, lookup2, herase, houter, hfac, hnf]
  · show sumLens (eraseInstanceA t n (bindValueA t n v c s).1).instances
      = sumLens c.instances
    rw [herase]

/-- C8 witness: bind `("int", "x") ↦ 3` into a fresh root (whose store
is empty) and erase it again; the store returns to empty, `contains`
is false and `size` is 0. -/
theorem c8_erase_collapses_group_witness :
    lookupA (decayName (.base "int")) (IocA.new none).instances = none
    ∧ containsA (.base "int") "x"
        (eraseInstanceA (.base "int") "x"
          (bindValueA (.base "int") "x" 3 (IocA.new none) ⟨0, 0⟩).1) = false
    ∧ sizeA (eraseInstanceA (.base "int") "x"
        (bindValueA (.base "int") "x" 3 (IocA.new none) ⟨0, 0⟩).1)
      = sizeA (IocA.new none) := by
  have h := c8_erase_collapses_group (.base "int") "x" 3 (IocA.new none)
    ⟨0, 0⟩ rfl rfl
  exact ⟨rfl, h.2.2.2.1, h.2.2.2.2⟩

theorem createByNameWithoutStoringA_no_store_write (t : CType) (n : String)
    (c : IocA) (s : SideSt) :
    (createByNameWithoutStoringA t n c s).2.1 = c := by
  rcases c with ⟨_ | p, fs, inst⟩ <;>
  · rw [createByNameWithoutStoringA]
    simp only [IocA.factories]
    rcases hh : lookupA (decayName t) fs with _ | f
    · simp
    · simp only [hh]
      split_ifs <;> rfl

theorem createByNameWithoutStoringSharedA_no_store_write (t : CType)
    (n : String) (c : IocA) (s : SideSt) :
    (createByNameWithoutStoringSharedA t n c s).2.1 = c := by
  rcases c with ⟨_ | p, fs, inst⟩ <;>
  · rw [createByNameWithoutStoringSharedA]
    simp only [IocA.factories]
    rcases hh : lookupA (decayName t) fs with _ | f
    · simp
    · simp only [hh]
      split_ifs <;> rfl

/-- C3 evaluation at the failing input: the non-caching creators never
touch the store (the first two conjuncts show both return the container
unchanged, for every container), and delegation of the unique variant to
a parent with a unique factory works; but the shared variant delegates
to the parent's **unique** variant (`createByNameWithoutStoring`, source
line 677), so with a parent holding only a *shared* `Widget` factory -
where the parent's own shared creation succeeds - the child's
`createWithoutStoringShared<Widget>()` fails with the "shared factory
cannot return a unique ptr" `IocException` instead of returning the
parent-produced instance. -/
theorem c3_shared_delegation_bug_eval :
    (∀ (t : CType) (n : String) (c : IocA) (s : SideSt),
      (createByNameWithoutStoringA t n c s).2.1 = c
      ∧ (createByNameWithoutStoringSharedA t n c s).2.1 = c)
    ∧ lookupA (decayName (.base "Widget"))
        (IocA.new (some (registerFactoryA (.base "Widget")
          ⟨sharedFactoryTag (.base "Widget"), 7⟩ (IocA.new none)))).factories
      = none
    ∧ createByNameWithoutStoringSharedA (.base "Widget") ""
        (registerFactoryA (.base "Widget")
          ⟨sharedFactoryTag (.base "Widget"), 7⟩ (IocA.new none)) ⟨0, 0⟩
      = (.ok ⟨0, 7⟩,
         registerFactoryA (.base "Widget")
           ⟨sharedFactoryTag (.base "Widget"), 7⟩ (IocA.new none), ⟨1, 1⟩)
    ∧ createByNameWithoutStoringSharedA (.base "Widget") ""
        (IocA.new (some (registerFactoryA (.base "Widget")
          ⟨sharedFactoryTag (.base "Widget"), 7⟩ (IocA.new none)))) ⟨0, 0⟩
      = (.error (.sharedFactoryAsUnique (uniqueFactoryTag (.base "Widget"))
          (sharedFactoryTag (.base "Widget"))),
         IocA.new (some (registerFactoryA (.base "Widget")
           ⟨sharedFactoryTag (.base "Widget"), 7⟩ (IocA.new none))), ⟨0, 0⟩) := by
  exact ⟨fun t n c s =>
    ⟨createByNameWithoutStoringA_no_store_write t n c s,
     createByNameWithoutStoringSharedA_no_store_write t n c s⟩,
    rfl, rfl, rfl⟩

/-- C9: `size(false)` counts exactly the bound entries of this registry
(summing every inner map; the factory map never enters the count), and
`size(true)` additionally walks the containers bound under the
`IocContainer` key: a root whose 2 directly-bound entries are two child
registries holding 3 and 4 entries reports `size(false) = 2` and
`size(true) = 9`. -/
theorem c9_size_nonrecursive_and_recursive :
    (∀ (fs : List (String × Unit))
       (store : List (String × List (String × Option IocB))),
      sizeB false (.mk fs store) = sumInnerLens store)
    ∧ sizeB false
        (.mk [] [(containerTypeName,
          [("sub1", some (.mk []
             [("int", [("3", none)]),
              ("char", [("a", none), ("b", none)])])),
           ("sub2", some (.mk []
             [("int", [("4", none), ("5", none)]),
              ("char", [("z", none)]),
              ("std::string", [("", none)])]))])]) = 2
    ∧ sizeB true
        (.mk [] [(containerTypeName,
          [("sub1", some (.mk []
             [("int", [("3", none)]),
              ("char", [("a", none), ("b", none)])])),
           ("sub2", some (.mk []
             [("int", [("4", none), ("5", none)]),
              ("char", [("z", none)]),
              ("std::string", [("", none)])]))])]) = 9 := by
  refine ⟨?_, rfl, rfl⟩
  intro fs store
  simp [sizeB]

end CppInvert
